import Mathlib

/-!
Verification of the Propiqq tax-deed repository: a shallow embedding of
the extractor (`extract_data.py`) and the dashboard record operations
(`tax_deed_app.py`, `tax_deed_app_enhanced.py`), together with proofs of
the specification's claims about them.

Cells of the input spreadsheet grid are modelled as `Option String`
(`none` is an absent/NaN cell).  Python string primitives used by the
code (`strip`, `replace`, `lower`, substring containment) are modelled
on the character list of the string; `\d` of the parcel regex is
modelled as an ASCII digit.
-/

namespace Propiqq

/-- Python `str.strip()`: remove surrounding whitespace. -/
def pyStrip (s : String) : String :=
  ⟨((s.data.dropWhile Char.isWhitespace).reverse.dropWhile Char.isWhitespace).reverse⟩

/-- Boolean prefix test on character lists. -/
def isPrefixOfL : List Char → List Char → Bool
  | [], _ => true
  | _ :: _, [] => false
  | a :: as, b :: bs => a == b && isPrefixOfL as bs

/-- Boolean infix (substring) test on character lists. -/
def isInfixOfL (pat : List Char) : List Char → Bool
  | [] => pat.isEmpty
  | c :: rest => isPrefixOfL pat (c :: rest) || isInfixOfL pat rest

/-- Python `pat in s`: substring containment. -/
def strContains (s pat : String) : Bool := isInfixOfL pat.data s.data

/-- Python `s.replace('nan', '')`: drop every (leftmost, non-overlapping)
occurrence of `"nan"`. -/
def removeNan : List Char → List Char
  | 'n' :: 'a' :: 'n' :: rest => removeNan rest
  | c :: rest => c :: removeNan rest
  | [] => []

/-- Python `s.replace('\n', ' ')`: a character-wise map. -/
def newlineToSpace (l : List Char) : List Char :=
  l.map (fun c => if c = '\n' then ' ' else c)

/-- Python `s.lower()` (ASCII). -/
def pyLower (s : String) : String := ⟨s.data.map Char.toLower⟩

/-- Case-insensitive *literal substring* containment.  This is the
specification's reading of the dashboard search ("case-insensitive
substring match" of the term); the program itself hands the term to a
regular-expression engine (see `reContainsCI`), and the two agree
exactly on terms without regex metacharacters. -/
def icontains (s pat : String) : Bool := strContains (pyLower s) (pyLower pat)

/-- Is `c` one of the metacharacters of Python's `re` syntax? -/
def isRegexMeta (c : Char) : Bool :=
  c == '.' || c == '^' || c == '$' || c == '*' || c == '+' || c == '?'
    || c == '\x7b' || c == '\x7d' || c == '[' || c == ']' || c == '\\'
    || c == '|' || c == '(' || c == ')'

/-- Does the string contain a regex metacharacter? -/
def hasRegexMeta (s : String) : Bool := s.data.any isRegexMeta

/-- A token of the modelled regular-expression subset: a plain character
or the any-character metacharacter `.`. -/
inductive RegexToken where
  | lit (c : Char) : RegexToken
  | dot : RegexToken
deriving DecidableEq, Repr

/-- Compile a search term the way `re.compile` reads it, for the
modelled subset: `.` becomes the any-character token and every other
character matches literally.  The model is faithful for terms whose
only metacharacter is `.`; terms using the remaining metacharacters
(quantifiers, classes, groups, anchors — including invalid patterns,
on which the program raises `re.error`) are outside the modelled
subset. -/
def regexTokens (pat : String) : List RegexToken :=
  pat.data.map (fun c => if c = '.' then RegexToken.dot else RegexToken.lit c)

/-- One-token match under `re.IGNORECASE`: a literal compares
case-insensitively, `.` matches every character except a newline. -/
def tokenMatches : RegexToken → Char → Bool
  | RegexToken.lit c, d => c.toLower == d.toLower
  | RegexToken.dot, d => !(d == '\n')

/-- Match the whole token list at the start of the character list. -/
def matchHere : List RegexToken → List Char → Bool
  | [], _ => true
  | _ :: _, [] => false
  | t :: ts, c :: cs => tokenMatches t c && matchHere ts cs

/-- `re.search`: try the pattern at every starting position. -/
def reSearch (toks : List RegexToken) : List Char → Bool
  | [] => matchHere toks []
  | c :: cs => matchHere toks (c :: cs) || reSearch toks cs

/-- `Series.str.contains(term, case=False, na=False)` as the program
runs it: the term is a regular expression (`regex=True` is the pandas
default), searched case-insensitively at every position of the value. -/
def reContainsCI (s term : String) : Bool := reSearch (regexTokens term) s.data

/-- `re.match(r'^\d{3}-\d{2}-\d{3}.*', s)` as a Boolean: the string starts
with three digits, a hyphen, two digits, a hyphen, three digits (the
trailing `.*` matches anything, including the empty string). -/
def parcelMatch (s : String) : Bool :=
  match s.data with
  | a :: b :: c :: d :: e :: f :: g :: h :: i :: _ =>
      a.isDigit && b.isDigit && c.isDigit && d == '-' && e.isDigit && f.isDigit
        && g == '-' && h.isDigit && i.isDigit
  | _ => false

/-- Numeric value of a digit list, most significant first. -/
def digitsToNat (l : List Char) : Nat :=
  l.foldl (fun a c => a * 10 + (c.toNat - 48)) 0

/-- `pd.to_numeric(s, errors='coerce')` on a string cell: an optional
sign followed by a decimal literal (`"5"`, `"5."`, `".5"`, `"-5.25"`),
surrounding whitespace ignored; `none` when the string is not numeric. -/
def toNumeric (s : String) : Option Rat :=
  let t := (pyStrip s).data
  let (sign, rest) : Int × List Char :=
    match t with
    | '-' :: r => (-1, r)
    | '+' :: r => (1, r)
    | r => (1, r)
  let intPart := rest.takeWhile Char.isDigit
  let rest2 := rest.dropWhile Char.isDigit
  match rest2 with
  | [] => if intPart.isEmpty then none else some (mkRat (sign * digitsToNat intPart) 1)
  | '.' :: frac =>
      if frac.all Char.isDigit && !(intPart.isEmpty && frac.isEmpty) then
        some (mkRat (sign * (digitsToNat intPart * 10 ^ frac.length + digitsToNat frac))
          (10 ^ frac.length))
      else none
  | _ => none

/-- A grid row: cells left to right, `none` for an absent (NaN) cell. -/
abbrev Row := List (Option String)

/-- `row.iloc[j]`: the `j`-th cell, absent when out of range. -/
def cell (row : Row) (j : Nat) : Option String := row.getD j none

/-- Python `str(cell)`: the string itself, `"nan"` for an absent cell. -/
def cellStr : Option String → String
  | some s => s
  | none => "nan"

/-- A record before the final numeric cleanup of `opening_bid`
(`opening_bid` is still the raw cell; `none` stands for the literal `0`
the code substitutes for an absent cell). -/
structure RawRecord where
  parcel_no : String
  address : String
  case_no : String
  defendant : String
  opening_bid : Option String
  property_type : String
  sale_date : String
  status : String
deriving DecidableEq, Repr

/-- A finished property record, as persisted by the extractor and
manipulated by the dashboard. -/
structure Record where
  parcel_no : String
  address : String
  case_no : String
  defendant : String
  opening_bid : Rat
  property_type : String
  sale_date : String
  status : String
deriving DecidableEq, Repr

/-- Is this a header row: `'PARCEL NO.' in str(row.iloc[0])`. -/
def isHeaderRow (row : Row) : Bool :=
  strContains (cellStr (cell row 0)) "PARCEL NO."

/-- The header-location loop of `extract_tax_deed_data`, carrying the
current row index. -/
def findHeaderAux : Nat → List Row → Option Nat
  | _, [] => none
  | i, row :: rest => if isHeaderRow row then some i else findHeaderAux (i + 1) rest

/-- First row index whose first cell contains `'PARCEL NO.'`. -/
def findHeader (grid : List Row) : Option Nat := findHeaderAux 0 grid

/-- The body of the data-extraction loop for the row at absolute index
`i`: `none` when the row is skipped (blank first cell, section-title
marker, or repeated header marker), otherwise the raw record built from
fixed column positions. -/
def buildRaw (i : Nat) (row : Row) : Option RawRecord :=
  let c0 := cell row 0
  if c0.isNone then none
  else if pyStrip (cellStr c0) = "" then none
  else if strContains (cellStr c0) "THE FOLLOWING PARCELS" then none
  else if strContains (cellStr c0) "PARCEL NO." then none
  else
    let addr0 := match cell row 1 with | some s => pyStrip s | none => ""
    let def0 := match cell row 3 with | some s => pyStrip s | none => ""
    some {
      parcel_no := pyStrip (cellStr c0)
      address := pyStrip ⟨newlineToSpace (removeNan addr0.data)⟩
      case_no := match cell row 2 with | some s => pyStrip s | none => ""
      defendant := pyStrip ⟨removeNan def0.data⟩
      opening_bid := cell row 5
      property_type := match cell row 7 with | some s => pyStrip s | none => "land"
      sale_date := if i < 150 then "September 3, 2025" else "September 4, 2025"
      status := "Available" }

/-- The data-extraction loop over the rows after the header, collecting
the raw records in order. -/
def extractRowsAux : Nat → List Row → List RawRecord
  | _, [] => []
  | i, row :: rest =>
      match buildRaw i row with
      | none => extractRowsAux (i + 1) rest
      | some r => r :: extractRowsAux (i + 1) rest

/-- The final numeric cleanup:
`pd.to_numeric(opening_bid, errors='coerce').fillna(0)`. -/
def cleanBid : Option String → Rat
  | none => 0
  | some s => (toNumeric s).getD 0

/-- Turn a raw record into a finished record by cleaning `opening_bid`. -/
def finalize (r : RawRecord) : Record :=
  { parcel_no := r.parcel_no, address := r.address, case_no := r.case_no,
    defendant := r.defendant, opening_bid := cleanBid r.opening_bid,
    property_type := r.property_type, sale_date := r.sale_date, status := r.status }

/-- The possible outcomes of `extract_tax_deed_data`: `headerNotFound`
models the `return None` path when no header row exists; `emptyData`
models the uncaught `KeyError` the program raises at the
`clean_df['parcel_no']` validity filter when no candidate row survived
the loop (an empty `data_rows` gives a `DataFrame` with no columns), so
the process aborts with no record set; `ok` carries the extracted
record set.  When at least one candidate row survived, the filter and
the numeric cleanup operate on existing columns and succeed even if the
filter keeps nothing. -/
inductive ExtractOutcome where
  | headerNotFound : ExtractOutcome
  | emptyData : ExtractOutcome
  | ok (records : List Record) : ExtractOutcome
deriving DecidableEq, Repr

/-- `extract_tax_deed_data` on a grid: locate the header (or abort with
`headerNotFound`), run the extraction loop on the rows after it, abort
with `emptyData` when no candidate row survived the loop (the program's
`KeyError` on the column-less empty `DataFrame`), otherwise keep the
records whose `parcel_no` matches the parcel pattern and clean
`opening_bid`. -/
def extract (grid : List Row) : ExtractOutcome :=
  match findHeader grid with
  | none => ExtractOutcome.headerNotFound
  | some h =>
      let raws := extractRowsAux (h + 1) (grid.drop (h + 1))
      if raws.isEmpty then ExtractOutcome.emptyData
      else ExtractOutcome.ok
        ((raws.filter (fun r => parcelMatch r.parcel_no)).map finalize)

/-- The per-row outcome of the whole pipeline: the finished record the
row at absolute index `i` contributes, or `none` when the row is skipped
or dropped by the validity filter. -/
def rowRecord (i : Nat) (row : Row) : Option Record :=
  match buildRaw i row with
  | none => none
  | some r => if parcelMatch r.parcel_no then some (finalize r) else none

/-- The extraction loop fused with the validity filter and the cleanup:
one finished record per qualifying row, in row order. -/
def extractRecsAux : Nat → List Row → List Record
  | _, [] => []
  | i, row :: rest =>
      match rowRecord i row with
      | none => extractRecsAux (i + 1) rest
      | some r => r :: extractRecsAux (i + 1) rest

/-! ### Dashboard model

The dashboard (`tax_deed_app.py`, `tax_deed_app_enhanced.py`) loads the
persisted record set into memory, filters it for display, and mutates it
through the add / edit / delete flows, rewriting the whole set on every
successful mutation.  The record set is modelled as a `List Record`; a
selected "All" choice in a select box is modelled as `none`. -/

/-- The sidebar filter selections: `none` models the "All" choice,
`search = ""` models an empty search box (Python falsiness skips the
search filter). -/
structure Filters where
  sale_date : Option String
  status : Option String
  property_type : Option String
  bid_lo : Rat
  bid_hi : Rat
  search : String

/-- The sequential filter application of `main` (both apps): sale date,
status, opening-bid range, property type, then the case-insensitive
regex search over address / parcel / defendant when a search term is
given. -/
def applyFilters (rs : List Record) (f : Filters) : List Record :=
  let d1 : List Record := match f.sale_date with
    | some d => rs.filter (fun r => r.sale_date == d)
    | none => rs
  let d2 : List Record := match f.status with
    | some v => d1.filter (fun r => r.status == v)
    | none => d1
  let d3 := d2.filter (fun r => decide (f.bid_lo ≤ r.opening_bid)
    && decide (r.opening_bid ≤ f.bid_hi))
  let d4 : List Record := match f.property_type with
    | some v => d3.filter (fun r => r.property_type == v)
    | none => d3
  if f.search == "" then d4
  else d4.filter (fun r => reContainsCI r.address f.search
    || reContainsCI r.parcel_no f.search || reContainsCI r.defendant f.search)

/-- The specification's conjunction of all filter predicates, as a
single test; the search component is the spec's case-insensitive
literal substring match over the three fields. -/
def filterPred (f : Filters) (r : Record) : Bool :=
  (match f.sale_date with | some d => r.sale_date == d | none => true)
    && (match f.status with | some v => r.status == v | none => true)
    && (decide (f.bid_lo ≤ r.opening_bid) && decide (r.opening_bid ≤ f.bid_hi))
    && (match f.property_type with | some v => r.property_type == v | none => true)
    && (f.search == "" || icontains r.address f.search
        || icontains r.parcel_no f.search || icontains r.defendant f.search)

/-- The add flow of `main` (tab 3): reject when the parcel number is
already present (no mutation, no save), otherwise append the new record
and persist.  The Boolean reports success. -/
def addRecord (rs : List Record) (rec : Record) : List Record × Bool :=
  if rs.any (fun r => r.parcel_no == rec.parcel_no) then (rs, false)
  else (rs ++ [rec], true)

/-- The edit-property form values (`edit_property_form`): every field of
the record except `parcel_no`, which the form does not offer. -/
structure EditForm where
  address : String
  opening_bid : Rat
  case_no : String
  defendant : String
  status : String
  property_type : String
  sale_date : String
deriving DecidableEq, Repr

/-- Saving an edit writes each submitted form field into the record;
`parcel_no` is untouched (the form has no such field). -/
def applyEdit (r : Record) (e : EditForm) : Record :=
  { r with
    address := e.address
    opening_bid := e.opening_bid
    case_no := e.case_no
    defendant := e.defendant
    status := e.status
    property_type := e.property_type
    sale_date := e.sale_date }

/-- The edit-save flow of `main` (tab 2): update the selected row in
place and persist the whole set. -/
def editRecord (rs : List Record) (i : Nat) (e : EditForm) : List Record :=
  match rs.get? i with
  | none => rs
  | some r => rs.set i (applyEdit r e)

/-- The confirmed-delete flow of `main` (tab 2): `df.drop(index)` drops
the selected row, and the one-smaller set is persisted. -/
def deleteRecord (rs : List Record) (i : Nat) : List Record :=
  rs.eraseIdx i

/-! ### Helper lemmas -/

/-- The validity filter and cleanup distribute over the extraction loop:
the extractor's final record list is the fused per-row pipeline. -/
theorem filter_map_extractRowsAux (rows : List Row) : ∀ i,
    ((extractRowsAux i rows).filter (fun r => parcelMatch r.parcel_no)).map finalize
      = extractRecsAux i rows := by
  induction rows with
  | nil => intro i; rfl
  | cons row rest ih =>
      intro i
      simp only [extractRowsAux, extractRecsAux, rowRecord]
      cases hb : buildRaw i row with
      | none => exact ih (i + 1)
      | some r =>
          cases hp : parcelMatch r.parcel_no with
          | false => simp [List.filter_cons, hp, ih (i + 1)]
          | true => simp [List.filter_cons, hp, ih (i + 1)]

/-- When the header is found and at least one candidate row survives
the loop, extraction succeeds and equals the fused per-row pipeline
over the rows after the header. -/
theorem extract_eq_extractRecsAux (grid : List Row) (h : Nat)
    (hh : findHeader grid = some h)
    (hne : extractRowsAux (h + 1) (grid.drop (h + 1)) ≠ []) :
    extract grid = ExtractOutcome.ok (extractRecsAux (h + 1) (grid.drop (h + 1))) := by
  have hie : (extractRowsAux (h + 1) (grid.drop (h + 1))).isEmpty = false := by
    cases hx : extractRowsAux (h + 1) (grid.drop (h + 1)) with
    | nil => exact absurd hx hne
    | cons a l => rfl
  simp [extract, hh, hie, filter_map_extractRowsAux]

/-- Unfolding of the fused loop on a cons cell: each row contributes
exactly the (zero or one) records of its per-row outcome. -/
theorem extractRecsAux_cons (i : Nat) (row : Row) (rest : List Row) :
    extractRecsAux i (row :: rest)
      = (rowRecord i row).toList ++ extractRecsAux (i + 1) rest := by
  simp only [extractRecsAux]
  cases rowRecord i row <;> simp

/-- Membership in the fused loop comes from some row of the list. -/
theorem mem_extractRecsAux (rows : List Row) : ∀ i r, r ∈ extractRecsAux i rows →
    ∃ k row, rows.get? k = some row ∧ rowRecord (i + k) row = some r := by
  induction rows with
  | nil => intro i r hr; cases hr
  | cons row rest ih =>
      intro i r hr
      rw [extractRecsAux_cons] at hr
      rcases List.mem_append.1 hr with hr | hr
      · refine ⟨0, row, rfl, ?_⟩
        rw [Nat.add_zero]
        cases hrow : rowRecord i row with
        | none => rw [hrow] at hr; cases hr
        | some r2 =>
            rw [hrow] at hr
            simp only [Option.toList, List.mem_singleton] at hr
            rw [hr]
      · rcases ih (i + 1) r hr with ⟨k, row2, hk, hrec⟩
        refine ⟨k + 1, row2, hk, ?_⟩
        rw [show i + (k + 1) = i + 1 + k by omega]
        exact hrec

/-- A row of the list whose per-row outcome is a record puts that record
into the fused loop's output. -/
theorem extractRecsAux_mem_of_get? (rows : List Row) : ∀ i k row r,
    rows.get? k = some row → rowRecord (i + k) row = some r →
    r ∈ extractRecsAux i rows := by
  induction rows with
  | nil => intro i k row r hk; cases hk
  | cons row0 rest ih =>
      intro i k row r hk hrec
      rw [extractRecsAux_cons]
      cases k with
      | zero =>
          cases hk
          refine List.mem_append.2 (Or.inl ?_)
          rw [Nat.add_zero] at hrec
          rw [hrec]
          exact List.mem_singleton.2 rfl
      | succ k =>
          refine List.mem_append.2 (Or.inr ?_)
          refine ih (i + 1) k row r hk ?_
          rw [show i + 1 + k = i + (k + 1) by omega]
          exact hrec

/-- The header search never finds an index below its starting index. -/
theorem findHeaderAux_some_iff (rows : List Row) : ∀ i h,
    findHeaderAux i rows = some h ↔
      ∃ k, h = i + k
        ∧ (∃ row, rows.get? k = some row ∧ isHeaderRow row = true)
        ∧ ∀ j row', j < k → rows.get? j = some row' → isHeaderRow row' = false := by
  induction rows with
  | nil =>
      intro i h
      constructor
      · intro hx; cases hx
      · rintro ⟨k, -, ⟨row, hk, -⟩, -⟩; cases hk
  | cons row0 rest ih =>
      intro i h
      simp only [findHeaderAux]
      by_cases h0 : isHeaderRow row0 = true
      · rw [if_pos h0]
        constructor
        · intro hx
          cases hx
          exact ⟨0, by omega, ⟨row0, rfl, h0⟩, fun j row' hj => by omega⟩
        · rintro ⟨k, hk, ⟨row, hrow, hhd⟩, hmin⟩
          cases k with
          | zero => cases hrow; simp [hk]
          | succ k => exact absurd h0 (by simpa using hmin 0 row0 (by omega) rfl)
      · rw [if_neg h0]
        rw [ih (i + 1) h]
        constructor
        · rintro ⟨k, hk, ⟨row, hrow, hhd⟩, hmin⟩
          refine ⟨k + 1, by omega, ⟨row, hrow, hhd⟩, ?_⟩
          intro j row' hj hrow'
          cases j with
          | zero =>
              cases hrow'
              simpa using h0
          | succ j => exact hmin j row' (by omega) hrow'
        · rintro ⟨k, hk, ⟨row, hrow, hhd⟩, hmin⟩
          cases k with
          | zero =>
              cases hrow
              exact absurd hhd h0
          | succ k =>
              refine ⟨k, by omega, ⟨row, hrow, hhd⟩, ?_⟩
              intro j row' hj hrow'
              exact hmin (j + 1) row' (by omega) hrow'

/-- The header search fails exactly when no row is a header row. -/
theorem findHeaderAux_none_iff (rows : List Row) : ∀ i,
    findHeaderAux i rows = none ↔ ∀ row ∈ rows, isHeaderRow row = false := by
  induction rows with
  | nil => intro i; simp [findHeaderAux]
  | cons row0 rest ih =>
      intro i
      simp only [findHeaderAux]
      by_cases h0 : isHeaderRow row0 = true
      · rw [if_pos h0]
        simp [h0]
      · rw [if_neg h0]
        rw [ih (i + 1)]
        constructor
        · intro hx row hrow
          rcases List.mem_cons.1 hrow with rfl | hrow
          · simpa using h0
          · exact hx row hrow
        · intro hx row hrow
          exact hx row (List.mem_cons.2 (Or.inr hrow))

/-- **C3** — The extractor scans rows top-to-bottom and takes the first
row whose first cell contains the literal text `"PARCEL NO."` as the
header row; when no row's first cell contains the marker, extraction
aborts with the header-not-found failure (the `return None` path) and
no record set is produced.  When a header is found, extraction either
aborts on an empty candidate set (the program's `KeyError`) or yields
the record set of the rows after the header. -/
theorem C3_header_location (grid : List Row) :
    (∀ h, findHeader grid = some h ↔
        (∃ row, grid.get? h = some row ∧ isHeaderRow row = true)
          ∧ ∀ j row', j < h → grid.get? j = some row' → isHeaderRow row' = false)
    ∧ (findHeader grid = none ↔ ∀ row ∈ grid, isHeaderRow row = false)
    ∧ (findHeader grid = none → extract grid = ExtractOutcome.headerNotFound)
    ∧ (∀ h, findHeader grid = some h →
        (extractRowsAux (h + 1) (grid.drop (h + 1)) = [] →
          extract grid = ExtractOutcome.emptyData)
        ∧ (extractRowsAux (h + 1) (grid.drop (h + 1)) ≠ [] →
          extract grid
            = ExtractOutcome.ok (extractRecsAux (h + 1) (grid.drop (h + 1))))) := by
  refine ⟨?_, ?_, ?_, ?_⟩
  · intro h
    rw [findHeader, findHeaderAux_some_iff]
    constructor
    · rintro ⟨k, hk, hrow, hmin⟩
      rw [hk, Nat.zero_add]
      exact ⟨hrow, hmin⟩
    · rintro ⟨hrow, hmin⟩
      exact ⟨h, by omega, hrow, hmin⟩
  · rw [findHeader, findHeaderAux_none_iff]
  · intro hn
    simp [extract, hn]
  · intro h hh
    refine ⟨?_, extract_eq_extractRecsAux grid h hh⟩
    intro h0
    simp [extract, hh, h0]

/-- Witness for C3: a concrete grid with no header marker aborts with
the header-not-found failure, and a concrete grid whose header is the
last row aborts on the empty candidate set. -/
theorem C3_header_location_witness :
    findHeader [[some "hello", some "world"]] = none
      ∧ extract [[some "hello", some "world"]] = ExtractOutcome.headerNotFound
      ∧ extract [[some "PARCEL NO."]] = ExtractOutcome.emptyData := by
  have h := (C3_header_location [[some "hello", some "world"]]).2.2.1
  have h2 := ((C3_header_location [[some "PARCEL NO."]]).2.2.2 0 (by decide)).1
  exact ⟨by decide, h (by decide), h2 (by decide)⟩

/-- The raw record of a non-skipped row takes `opening_bid` verbatim
from column 5. -/
theorem buildRaw_opening_bid (i : Nat) (row : Row) (raw : RawRecord)
    (hb : buildRaw i row = some raw) : raw.opening_bid = cell row 5 := by
  simp only [buildRaw] at hb
  split_ifs at hb
  all_goals cases hb
  all_goals rfl

/-- The finished record of a row takes `opening_bid` from the cleanup of
column 5. -/
theorem rowRecord_opening_bid (i : Nat) (row : Row) (r : Record)
    (hr : rowRecord i row = some r) : r.opening_bid = cleanBid (cell row 5) := by
  cases hb : buildRaw i row with
  | none => simp only [rowRecord, hb] at hr; cases hr
  | some raw =>
      simp only [rowRecord, hb] at hr
      by_cases hp : parcelMatch raw.parcel_no = true
      · rw [if_pos hp] at hr
        cases hr
        rw [show (finalize raw).opening_bid = cleanBid raw.opening_bid from rfl,
          buildRaw_opening_bid i row raw hb]
      · rw [if_neg hp] at hr; cases hr

/-- Grid refuting C2 as stated: column 5 of the data row holds the
numeric string `"-5"`, which the cleanup passes through. -/
def c2grid : List Row :=
  [[some "PARCEL NO."],
   [some "105-20-013", some "A", some "B", some "C",
    none, some "-5", none, some "t"]]

/-- The record the extractor produces from `c2grid`. -/
def c2rec : Record :=
  { parcel_no := "105-20-013", address := "A", case_no := "B", defendant := "C",
    opening_bid := mkRat (-5) 1, property_type := "t",
    sale_date := "September 3, 2025", status := "Available" }

/-- **C2, counterexample** — On `c2grid` the extractor outputs a record
whose `opening_bid` is `-5 < 0`: `pd.to_numeric` parses the negative
numeric cell and nothing clamps it, refuting "opening_bid >= 0 for
every record". -/
theorem C2_counterexample :
    extract c2grid = ExtractOutcome.ok [c2rec] ∧ c2rec.opening_bid < 0 := by decide

/-- **C2, amended** — Every record in the extractor's output takes its
`opening_bid` from the numeric cleanup of its source row's column 5: an
absent cell yields exactly `0`, a non-numeric cell yields exactly `0`,
and the value is `>= 0` whenever the cell does not parse as a negative
number (a cell parsing as a negative number is passed through
unchanged). -/
theorem C2_opening_bid (grid : List Row) (l : List Record) (r : Record)
    (hl : extract grid = ExtractOutcome.ok l) (hr : r ∈ l) :
    ∃ i row, rowRecord i row = some r
      ∧ r.opening_bid = cleanBid (cell row 5)
      ∧ (cell row 5 = none → r.opening_bid = 0)
      ∧ (∀ s, cell row 5 = some s → toNumeric s = none → r.opening_bid = 0)
      ∧ ((∀ s q, cell row 5 = some s → toNumeric s = some q → 0 ≤ q) →
          0 ≤ r.opening_bid) := by
  cases hh : findHeader grid with
  | none => simp only [extract, hh] at hl; cases hl
  | some h =>
      simp only [extract, hh] at hl
      by_cases hie : (extractRowsAux (h + 1) (grid.drop (h + 1))).isEmpty = true
      · rw [if_pos hie] at hl; cases hl
      · rw [if_neg hie] at hl
        rw [filter_map_extractRowsAux] at hl
        cases hl
        rcases mem_extractRecsAux (grid.drop (h + 1)) (h + 1) r hr
          with ⟨k, row, -, hrec⟩
        have hbid := rowRecord_opening_bid (h + 1 + k) row r hrec
        refine ⟨h + 1 + k, row, hrec, hbid, ?_, ?_, ?_⟩
        · intro hc; rw [hbid, hc]; rfl
        · intro s hc hn; rw [hbid, hc]
          simp [cleanBid, hn]
        · intro hq
          rw [hbid]
          cases hc : cell row 5 with
          | none => simp [cleanBid]
          | some s =>
              cases hn : toNumeric s with
              | none => simp [cleanBid, hn]
              | some q =>
                  have := hq s q hc hn
                  simpa [cleanBid, hn] using this

/-- Witness grid for C2's amended theorem: column 5 holds the
non-numeric string `"abc"`. -/
def c2wgrid : List Row :=
  [[some "PARCEL NO."],
   [some "105-20-013", some "A", some "B", some "C",
    none, some "abc", none, some "t"]]

/-- The record the extractor produces from `c2wgrid`: the non-numeric
bid cell became exactly `0`. -/
def c2wrec : Record :=
  { parcel_no := "105-20-013", address := "A", case_no := "B", defendant := "C",
    opening_bid := 0, property_type := "t",
    sale_date := "September 3, 2025", status := "Available" }

/-- Witness for C2's amended theorem at `c2wgrid`. -/
theorem C2_opening_bid_witness :
    ∃ i row, rowRecord i row = some c2wrec
      ∧ c2wrec.opening_bid = cleanBid (cell row 5)
      ∧ (cell row 5 = none → c2wrec.opening_bid = 0)
      ∧ (∀ s, cell row 5 = some s → toNumeric s = none → c2wrec.opening_bid = 0)
      ∧ ((∀ s q, cell row 5 = some s → toNumeric s = some q → 0 ≤ q) →
          0 ≤ c2wrec.opening_bid) :=
  C2_opening_bid c2wgrid [c2wrec] c2wrec (by decide) (by decide)

/-- The sale-date threshold is the only use a row's index has: the
per-row outcome at index `i` equals the outcome at a representative
index on the same side of `150`. -/
theorem rowRecord_threshold (i : Nat) (row : Row) :
    rowRecord i row
      = if i < 150 then rowRecord 0 row else rowRecord 150 row := by
  by_cases hi : i < 150
  · rw [if_pos hi]
    unfold rowRecord buildRaw
    simp only [hi, if_true, show (0 : Nat) < 150 by norm_num]
  · rw [if_neg hi]
    unfold rowRecord buildRaw
    simp only [hi, if_false, show ¬(150 : Nat) < 150 by norm_num]

/-- The example data row of the specification. -/
def c4row : Row :=
  [some "105-20-013", some "8215 ST CLAIR AVE", some "CV948061",
   some "BOB NANCE, ET AL", some "", some "212204.35", some "", some "land"]

/-- The record `c4row` yields when it sits before the sale-date
threshold. -/
def c4recA : Record :=
  { parcel_no := "105-20-013", address := "8215 ST CLAIR AVE",
    case_no := "CV948061", defendant := "BOB NANCE, ET AL",
    opening_bid := mkRat 21220435 100, property_type := "land",
    sale_date := "September 3, 2025", status := "Available" }

/-- The record `c4row` yields when it sits at or after the sale-date
threshold. -/
def c4recB : Record :=
  { parcel_no := "105-20-013", address := "8215 ST CLAIR AVE",
    case_no := "CV948061", defendant := "BOB NANCE, ET AL",
    opening_bid := mkRat 21220435 100, property_type := "land",
    sale_date := "September 4, 2025", status := "Available" }

/-- **C4** — Whenever the specification's example row
`["105-20-013", "8215 ST CLAIR AVE", "CV948061", "BOB NANCE, ET AL",
"", "212204.35", "", "land"]` appears below a located header row, the
extractor's output contains a record with parcel_no `"105-20-013"`,
address `"8215 ST CLAIR AVE"`, case_no `"CV948061"`, defendant
`"BOB NANCE, ET AL"`, opening_bid `212204.35`, property_type `"land"`,
and status `"Available"`. -/
theorem C4_example_row (grid : List Row) (h k : Nat)
    (hh : findHeader grid = some h)
    (hk : (grid.drop (h + 1)).get? k = some c4row) :
    ∃ l r, extract grid = ExtractOutcome.ok l ∧ r ∈ l
      ∧ r.parcel_no = "105-20-013" ∧ r.address = "8215 ST CLAIR AVE"
      ∧ r.case_no = "CV948061" ∧ r.defendant = "BOB NANCE, ET AL"
      ∧ r.opening_bid = mkRat 21220435 100 ∧ r.property_type = "land"
      ∧ r.status = "Available" := by
  have hsplit := rowRecord_threshold (h + 1 + k) c4row
  by_cases hi : h + 1 + k < 150
  · have hrec : rowRecord (h + 1 + k) c4row = some c4recA := by
      rw [hsplit, if_pos hi]; decide
    have hmem := extractRecsAux_mem_of_get? (grid.drop (h + 1)) (h + 1) k c4row
      c4recA hk hrec
    have hne : extractRowsAux (h + 1) (grid.drop (h + 1)) ≠ [] := by
      intro h0
      have hz : extractRecsAux (h + 1) (grid.drop (h + 1)) = [] := by
        rw [← filter_map_extractRowsAux, h0]; rfl
      rw [hz] at hmem
      cases hmem
    exact ⟨extractRecsAux (h + 1) (grid.drop (h + 1)), c4recA,
      extract_eq_extractRecsAux grid h hh hne, hmem,
      by decide, by decide, by decide, by decide, by decide, by decide, by decide⟩
  · have hrec : rowRecord (h + 1 + k) c4row = some c4recB := by
      rw [hsplit, if_neg hi]; decide
    have hmem := extractRecsAux_mem_of_get? (grid.drop (h + 1)) (h + 1) k c4row
      c4recB hk hrec
    have hne : extractRowsAux (h + 1) (grid.drop (h + 1)) ≠ [] := by
      intro h0
      have hz : extractRecsAux (h + 1) (grid.drop (h + 1)) = [] := by
        rw [← filter_map_extractRowsAux, h0]; rfl
      rw [hz] at hmem
      cases hmem
    exact ⟨extractRecsAux (h + 1) (grid.drop (h + 1)), c4recB,
      extract_eq_extractRecsAux grid h hh hne, hmem,
      by decide, by decide, by decide, by decide, by decide, by decide, by decide⟩

/-- Witness for C4 at the concrete two-row grid of the example. -/
theorem C4_example_row_witness :
    ∃ l r, extract [[some "PARCEL NO."], c4row] = ExtractOutcome.ok l ∧ r ∈ l
      ∧ r.parcel_no = "105-20-013" ∧ r.address = "8215 ST CLAIR AVE"
      ∧ r.case_no = "CV948061" ∧ r.defendant = "BOB NANCE, ET AL"
      ∧ r.opening_bid = mkRat 21220435 100 ∧ r.property_type = "land"
      ∧ r.status = "Available" :=
  C4_example_row [[some "PARCEL NO."], c4row] 0 0 (by decide) (by decide)

/-- Setting a position of a list to the element it already holds changes
nothing. -/
theorem set_get?_self {α : Type} : ∀ (l : List α) (i : Nat) (a : α),
    l.get? i = some a → l.set i a = l := by
  intro l
  induction l with
  | nil => intro i a hi; cases hi
  | cons hd tl ih =>
      intro i a hi
      cases i with
      | zero => cases hi; rfl
      | succ i =>
          simp only [List.set]
          rw [ih i a hi]

/-- Positions below a deleted index are untouched. -/
theorem eraseIdx_get?_lt : ∀ (l : List Record) (i j : Nat), j < i →
    (l.eraseIdx i).get? j = l.get? j := by
  intro l
  induction l with
  | nil => intro i j _; rfl
  | cons hd tl ih =>
      intro i j hj
      cases i with
      | zero => omega
      | succ i =>
          cases j with
          | zero => rfl
          | succ j => exact ih i j (by omega)

/-- Positions at or above a deleted index shift down by one. -/
theorem eraseIdx_get?_ge : ∀ (l : List Record) (i j : Nat), i ≤ j →
    (l.eraseIdx i).get? j = l.get? (j + 1) := by
  intro l
  induction l with
  | nil => intro i j _; rfl
  | cons hd tl ih =>
      intro i j hj
      cases i with
      | zero => rfl
      | succ i =>
          cases j with
          | zero => omega
          | succ j => exact ih i j (by omega)

/-- **C5** — Submitting the add form with a `parcel_no` already present
in the record set is rejected: the operation reports failure and the
persisted record set is returned unchanged. -/
theorem C5_duplicate_add_rejected (rs : List Record) (rec : Record)
    (hdup : ∃ r ∈ rs, r.parcel_no = rec.parcel_no) :
    addRecord rs rec = (rs, false) := by
  rcases hdup with ⟨r, hr, hpn⟩
  have hany : rs.any (fun r2 => r2.parcel_no == rec.parcel_no) = true :=
    List.any_eq_true.2 ⟨r, hr, by simp [hpn]⟩
  rw [addRecord, if_pos hany]

/-- Witness for C5: adding a record whose parcel number is already in a
one-element set is rejected and the set is unchanged. -/
theorem C5_duplicate_add_rejected_witness :
    addRecord [c2rec]
        { parcel_no := "105-20-013", address := "ELSEWHERE", case_no := "X",
          defendant := "Y", opening_bid := 1, property_type := "land",
          sale_date := "September 4, 2025", status := "Pending" }
      = ([c2rec], false) :=
  C5_duplicate_add_rejected _ _ ⟨c2rec, by decide, by decide⟩

/-- **C6** — A confirmed delete of the selected record (the row at index
`i`) removes exactly that entry: the persisted set is the list with
position `i` cut out, its size is exactly one smaller, and when the
selected record's `parcel_no` occurs exactly once in the set, no record
with that `parcel_no` remains. -/
theorem C6_delete_one (rs : List Record) (i : Nat) (r : Record)
    (hi : rs.get? i = some r) :
    deleteRecord rs i = rs.take i ++ rs.drop (i + 1)
    ∧ (deleteRecord rs i).length + 1 = rs.length
    ∧ (rs.countP (fun r2 => r2.parcel_no == r.parcel_no) = 1 →
        (deleteRecord rs i).countP (fun r2 => r2.parcel_no == r.parcel_no) = 0) := by
  obtain ⟨hlt, hget⟩ := List.getElem?_eq_some_iff.1
    (by rw [← List.get?_eq_getElem?]; exact hi)
  refine ⟨List.eraseIdx_eq_take_drop_succ rs i, ?_, ?_⟩
  · rw [deleteRecord, List.length_eraseIdx_of_lt hlt]
    omega
  · intro hcount
    have hsplit : rs.countP (fun r2 => r2.parcel_no == r.parcel_no)
        = (rs.take i).countP (fun r2 => r2.parcel_no == r.parcel_no)
          + ((rs.drop (i + 1)).countP (fun r2 => r2.parcel_no == r.parcel_no) + 1) := by
      conv_lhs => rw [← List.take_append_drop i rs]
      rw [List.countP_append, List.drop_eq_getElem_cons hlt, List.countP_cons, hget]
      simp
    rw [hsplit] at hcount
    rw [deleteRecord, List.eraseIdx_eq_take_drop_succ, List.countP_append]
    omega

/-- Witness for C6: deleting index 1 of a two-record set leaves exactly
the other record, one fewer, with the deleted parcel number gone. -/
theorem C6_delete_one_witness :
    deleteRecord [c2rec, c2wrec] 1 = [c2rec, c2wrec].take 1 ++ [c2rec, c2wrec].drop 2
    ∧ (deleteRecord [c2rec, c2wrec] 1).length + 1 = [c2rec, c2wrec].length
    ∧ ([c2rec, c2wrec].countP (fun r2 => r2.parcel_no == c2wrec.parcel_no) = 1 →
        (deleteRecord [c2rec, c2wrec] 1).countP
          (fun r2 => r2.parcel_no == c2wrec.parcel_no) = 0) :=
  C6_delete_one [c2rec, c2wrec] 1 c2wrec (by decide)

/-- The record used in the C9 counterexample. -/
def c9rec : Record :=
  { parcel_no := "105-20-013", address := "A", case_no := "B", defendant := "C",
    opening_bid := 1, property_type := "land", sale_date := "September 3, 2025",
    status := "Available" }

/-- An edit-form submission that changes every field the form offers. -/
def c9form : EditForm :=
  { address := "A2", opening_bid := 2, case_no := "B2", defendant := "C2",
    status := "Sold", property_type := "lot", sale_date := "September 4, 2025" }

/-- **C9, counterexample** — The edit form has no `parcel_no` field: a
submission that changes every offered field to a new value still leaves
the stored `parcel_no` exactly as before, so no edit-form submission
changes `parcel_no`. -/
theorem C9_counterexample :
    editRecord [c9rec] 0 c9form
      = [{ parcel_no := "105-20-013", address := "A2", case_no := "B2",
           defendant := "C2", opening_bid := 2, property_type := "lot",
           sale_date := "September 4, 2025", status := "Sold" }]
    ∧ (editRecord [c9rec] 0 c9form).map Record.parcel_no
        = [c9rec].map Record.parcel_no := by decide

/-- **C9, amended** — Saving the edit form on the record at index `i`
stores the submitted value into each of the seven fields the form
offers (address, opening_bid, case_no, defendant, status,
property_type, sale_date) — so each of those fields can be changed to
any desired value — while the `parcel_no` column of the record set is
left exactly as it was: the form has no `parcel_no` field. -/
theorem C9_edit_all_but_parcel (rs : List Record) (i : Nat) (r : Record)
    (e : EditForm) (hi : rs.get? i = some r) :
    editRecord rs i e = rs.set i (applyEdit r e)
    ∧ (editRecord rs i e).map Record.parcel_no = rs.map Record.parcel_no
    ∧ (applyEdit r e).parcel_no = r.parcel_no
    ∧ (applyEdit r e).address = e.address
    ∧ (applyEdit r e).opening_bid = e.opening_bid
    ∧ (applyEdit r e).case_no = e.case_no
    ∧ (applyEdit r e).defendant = e.defendant
    ∧ (applyEdit r e).status = e.status
    ∧ (applyEdit r e).property_type = e.property_type
    ∧ (applyEdit r e).sale_date = e.sale_date := by
  have heq : editRecord rs i e = rs.set i (applyEdit r e) := by
    rw [editRecord, hi]
  refine ⟨heq, ?_, rfl, rfl, rfl, rfl, rfl, rfl, rfl, rfl⟩
  rw [heq, List.map_set]
  refine set_get?_self _ i _ ?_
  rw [List.get?_eq_getElem?, List.getElem?_map,
    ← List.get?_eq_getElem?, hi]
  rfl

/-- Witness for C9's amended theorem at a concrete one-record set. -/
theorem C9_edit_all_but_parcel_witness :
    editRecord [c9rec] 0 c9form = [c9rec].set 0 (applyEdit c9rec c9form)
    ∧ (editRecord [c9rec] 0 c9form).map Record.parcel_no
        = [c9rec].map Record.parcel_no
    ∧ (applyEdit c9rec c9form).parcel_no = c9rec.parcel_no
    ∧ (applyEdit c9rec c9form).address = c9form.address
    ∧ (applyEdit c9rec c9form).opening_bid = c9form.opening_bid
    ∧ (applyEdit c9rec c9form).case_no = c9form.case_no
    ∧ (applyEdit c9rec c9form).defendant = c9form.defendant
    ∧ (applyEdit c9rec c9form).status = c9form.status
    ∧ (applyEdit c9rec c9form).property_type = c9form.property_type
    ∧ (applyEdit c9rec c9form).sale_date = c9form.sale_date :=
  C9_edit_all_but_parcel [c9rec] 0 c9rec c9form (by decide)

/-- **C10** — Every dashboard mutation leaves all records other than the
targeted one unchanged: an edit save rewrites only position `i` (every
other position reads back unchanged); a delete leaves positions below
`i` in place and shifts the ones above down by one, all with their
fields intact; an add either appends the new record at the end or (on a
duplicate) leaves the set as it was, and in both cases every existing
position reads back unchanged. -/
theorem C10_other_records_unchanged (rs : List Record) (i : Nat)
    (e : EditForm) (rec : Record) :
    (∀ j, j ≠ i → (editRecord rs i e).get? j = rs.get? j)
    ∧ (∀ j, j < i → (deleteRecord rs i).get? j = rs.get? j)
    ∧ (∀ j, i ≤ j → (deleteRecord rs i).get? j = rs.get? (j + 1))
    ∧ ((addRecord rs rec).1 = rs ++ [rec] ∨ (addRecord rs rec).1 = rs)
    ∧ (∀ j, j < rs.length → (addRecord rs rec).1.get? j = rs.get? j) := by
  refine ⟨?_, ?_, ?_, ?_, ?_⟩
  · intro j hj
    rw [editRecord]
    cases hi : rs.get? i with
    | none => rfl
    | some r =>
        rw [List.get?_eq_getElem?, List.get?_eq_getElem?,
          List.getElem?_set_ne (fun he => hj he.symm)]
  · intro j hj
    exact eraseIdx_get?_lt rs i j hj
  · intro j hj
    exact eraseIdx_get?_ge rs i j hj
  · rw [addRecord]
    by_cases hany : rs.any (fun r => r.parcel_no == rec.parcel_no) = true
    · rw [if_pos hany]; exact Or.inr rfl
    · rw [if_neg hany]; exact Or.inl rfl
  · intro j hj
    rw [addRecord]
    by_cases hany : rs.any (fun r => r.parcel_no == rec.parcel_no) = true
    · rw [if_pos hany]
    · rw [if_neg hany]
      rw [List.get?_eq_getElem?, List.get?_eq_getElem?,
        List.getElem?_append_left hj]

/-- Witness for C10 at a concrete two-record set. -/
theorem C10_other_records_unchanged_witness :
    (editRecord [c9rec, c2rec] 0 c9form).get? 1 = [c9rec, c2rec].get? 1
    ∧ (deleteRecord [c9rec, c2rec] 1).get? 0 = [c9rec, c2rec].get? 0
    ∧ (deleteRecord [c9rec, c2rec] 0).get? 0 = [c9rec, c2rec].get? 1
    ∧ (addRecord [c9rec, c2rec] c2wrec).1.get? 0 = [c9rec, c2rec].get? 0 := by
  have h := C10_other_records_unchanged [c9rec, c2rec] 0 c9form c2wrec
  have h1 := C10_other_records_unchanged [c9rec, c2rec] 1 c9form c2wrec
  exact ⟨h.1 1 (by decide), h1.2.1 0 (by decide), h.2.2.1 0 (by decide),
    h.2.2.2.2 0 (by decide)⟩

/-- On a pattern without `.`, the compiled token list matches at the
start of a value exactly when the lowered pattern is a prefix of the
lowered value. -/
theorem matchHere_all_lit : ∀ (pat s : List Char), (∀ c ∈ pat, c ≠ '.') →
    matchHere (pat.map (fun c => if c = '.' then RegexToken.dot else RegexToken.lit c)) s
      = isPrefixOfL (pat.map Char.toLower) (s.map Char.toLower) := by
  intro pat
  induction pat with
  | nil => intro s _; cases s <;> rfl
  | cons c cs ih =>
      intro s hnd
      cases s with
      | nil => rfl
      | cons d ds =>
          have hc : c ≠ '.' := hnd c (List.mem_cons_self c cs)
          simp only [List.map_cons]
          rw [if_neg hc]
          simp only [matchHere, tokenMatches, isPrefixOfL]
          rw [ih ds (fun x hx => hnd x (List.mem_cons_of_mem c hx))]

/-- On a pattern without `.`, the regex search coincides with
case-insensitive literal substring containment. -/
theorem reSearch_all_lit (pat : List Char) (hnd : ∀ c ∈ pat, c ≠ '.') :
    ∀ s : List Char,
    reSearch (pat.map (fun c => if c = '.' then RegexToken.dot else RegexToken.lit c)) s
      = isInfixOfL (pat.map Char.toLower) (s.map Char.toLower) := by
  intro s
  induction s with
  | nil =>
      simp only [List.map_nil, reSearch, isInfixOfL]
      rw [matchHere_all_lit pat [] hnd]
      cases pat <;> rfl
  | cons d ds ih =>
      simp only [List.map_cons, reSearch, isInfixOfL]
      rw [matchHere_all_lit pat (d :: ds) hnd, ih]
      simp only [List.map_cons]

/-- On a search term with no regex metacharacter, the program's search
primitive agrees with the specification's case-insensitive substring
containment. -/
theorem reContainsCI_eq_icontains (pat : String) (hp : hasRegexMeta pat = false) :
    ∀ s, reContainsCI s pat = icontains s pat := by
  have hnd : ∀ c ∈ pat.data, c ≠ '.' := by
    intro c hc he
    have hmeta : pat.data.any isRegexMeta = true :=
      List.any_eq_true.2 ⟨c, hc, by rw [he]; decide⟩
    rw [hasRegexMeta, hmeta] at hp
    cases hp
  intro s
  rw [reContainsCI, regexTokens, reSearch_all_lit pat.data hnd s.data]
  rfl

/-- The record refuting C7 as stated: its parcel number will be matched
by a dotted search term. -/
def c7crec : Record :=
  { parcel_no := "105-20-013", address := "8215 ST CLAIR AVE",
    case_no := "CV948061", defendant := "BOB NANCE", opening_bid := 1,
    property_type := "land", sale_date := "September 3, 2025",
    status := "Available" }

/-- The filter selection refuting C7 as stated: the search term
`"105.20.013"` contains the regex metacharacter `.`. -/
def c7cfilters : Filters :=
  { sale_date := none, status := none, property_type := none,
    bid_lo := 0, bid_hi := 10, search := "105.20.013" }

/-- **C7, counterexample** — With search term `"105.20.013"` the
program's filtered result keeps `c7crec` (the regex `.` matches the
hyphens of `"105-20-013"`), yet the term is a literal substring of none
of address, parcel number, or defendant, so the record fails the
claim's conjunctive substring predicate: the filtered result is not the
set of records satisfying the claimed predicates. -/
theorem C7_counterexample :
    applyFilters [c7crec] c7cfilters = [c7crec]
    ∧ icontains c7crec.address c7cfilters.search = false
    ∧ icontains c7crec.parcel_no c7cfilters.search = false
    ∧ icontains c7crec.defendant c7cfilters.search = false
    ∧ filterPred c7cfilters c7crec = false := by decide

/-- **C7, amended** — For every record set and every filter selection
whose search term contains no regex metacharacter, the dashboard's
filtered result is exactly the records of the set that satisfy all
selected predicates conjunctively: exact match on the selected sale
date, status, and property type, opening bid within the selected range
inclusive, and, when a search term is given, a case-insensitive
substring match of the term in at least one of address, parcel number,
or defendant.  (The program hands the search term to a regex engine, so
a term with metacharacters is interpreted as a pattern, not as a
substring.) -/
theorem C7_filter_conjunction (rs : List Record) (f : Filters)
    (hmeta : hasRegexMeta f.search = false) :
    applyFilters rs f = rs.filter (filterPred f)
    ∧ ∀ r, r ∈ applyFilters rs f ↔ r ∈ rs ∧ filterPred f r = true := by
  have heq : applyFilters rs f = rs.filter (filterPred f) := by
    obtain ⟨fsd, fst, fpt, flo, fhi, fs⟩ := f
    simp only [applyFilters, reContainsCI_eq_icontains fs hmeta]
    cases fsd <;> cases fst <;> cases fpt <;> cases hs : fs == ""
    all_goals simp only [hs, Bool.false_eq_true, if_true, if_false, List.filter_filter]
    all_goals refine (List.filter_congr (fun r hr => ?_)).symm
    all_goals simp only [filterPred, hs, Bool.true_and, Bool.and_true, Bool.true_or,
      Bool.false_or, Bool.and_assoc]
    all_goals simp [Bool.and_comm, Bool.and_left_comm, Bool.and_assoc]
  refine ⟨heq, fun r => ?_⟩
  rw [heq, List.mem_filter]

/-- The record set of the C7 witness. -/
def c7wrec : Record :=
  { parcel_no := "105-20-013", address := "8215 ST CLAIR AVE",
    case_no := "CV948061", defendant := "BOB NANCE", opening_bid := 1,
    property_type := "land", sale_date := "September 3, 2025",
    status := "Available" }

/-- The filter selection of the C7 witness: a metacharacter-free search
term. -/
def c7wf : Filters :=
  { sale_date := none, status := none, property_type := none,
    bid_lo := 0, bid_hi := 10, search := "clair" }

/-- Witness for C7's amended theorem at a concrete record set and a
concrete metacharacter-free search term. -/
theorem C7_filter_conjunction_witness :
    applyFilters [c7wrec] c7wf = [c7wrec].filter (filterPred c7wf)
    ∧ (c7wrec ∈ applyFilters [c7wrec] c7wf
        ↔ c7wrec ∈ [c7wrec] ∧ filterPred c7wf c7wrec = true) :=
  ⟨(C7_filter_conjunction [c7wrec] c7wf (by decide)).1,
   (C7_filter_conjunction [c7wrec] c7wf (by decide)).2 c7wrec⟩

end Propiqq
